import Mathlib

/-!
Shallow embedding of the kavex-bot Minecraft bridge gateway
(`src/bot/mc_ws.py`, with the linking command from
`src/bot/cogs/mc_identity.py` and the schema from `src/bot/db.py`).

Python dictionaries keyed by strings become association lists or
explicit structures; SQLite rows become structures; asynchronous
handlers become pure state-transition functions; the sha256 keyed hash
is abstracted as a function parameter where its value matters.
-/

/- ---------------------------------------------------------------
   Python string helpers: `str.strip()`, `str.lower()` (ASCII part).
   --------------------------------------------------------------- -/

/-- ASCII whitespace characters stripped by Python `str.strip()`. -/
def isSpaceChar (c : Char) : Bool :=
  c = ' ' || c = '\t' || c = '\n' || c = '\r' || c = Char.ofNat 11 || c = Char.ofNat 12

/-- Source `str.strip()` on a character list. -/
def stripChars (l : List Char) : List Char :=
  ((l.dropWhile isSpaceChar).reverse.dropWhile isSpaceChar).reverse

/-- Source `str.strip()`. -/
def pyStrip (s : String) : String :=
  String.mk (stripChars s.data)

/-- Source `str.lower()` on a character list (ASCII). -/
def lowerChars (l : List Char) : List Char :=
  l.map Char.toLower

/-- Source `str.lower()`. -/
def pyLower (s : String) : String :=
  String.mk (lowerChars s.data)

/- ---------------------------------------------------------------
   Member permissions (discord `member.guild_permissions` bits used
   by `_recompute_perm_profile_for_uuid`).
   --------------------------------------------------------------- -/

structure GuildPermissions where
  kick_members : Bool
  ban_members : Bool
  moderate_members : Bool
  manage_guild : Bool
  manage_roles : Bool
  manage_messages : Bool
  administrator : Bool
deriving DecidableEq, Repr

/-- Source `can_kick = bool(perms.kick_members or perms.administrator)`. -/
def can_kick (p : GuildPermissions) : Bool :=
  p.kick_members || p.administrator

/-- Source `can_ban = bool(perms.ban_members or perms.administrator)`. -/
def can_ban (p : GuildPermissions) : Bool :=
  p.ban_members || p.administrator

/-- Source `can_timeout = bool(perms.moderate_members or perms.administrator)`. -/
def can_timeout (p : GuildPermissions) : Bool :=
  p.moderate_members || p.administrator

/-- Source `is_staff = any([...])` as written in `_recompute_perm_profile_for_uuid`. -/
def is_staff (p : GuildPermissions) : Bool :=
  can_kick p || can_ban p || can_timeout p || p.manage_guild || p.manage_roles ||
    p.moderate_members || p.manage_messages || p.administrator

/- ---------------------------------------------------------------
   Roles and cosmetics (`_recompute_perm_profile_for_uuid`,
   lines 705-724 of mc_ws.py).
   --------------------------------------------------------------- -/

structure Role where
  name : String
  position : Nat
  colour : Nat
  hoist : Bool
  is_default : Bool
deriving DecidableEq, Repr

/-- Python `max(xs, key=lambda r: r.position)` over `h :: t`:
keeps the first element among those of maximal position. -/
def maxByPos (h : Role) (t : List Role) : Role :=
  t.foldl (fun best r => if best.position < r.position then r else best) h

/-- Upper-case hexadecimal digit. -/
def hexDigit (n : Nat) : Char :=
  if n < 10 then Char.ofNat (48 + n) else Char.ofNat (55 + n)

/-- Hexadecimal digits, least significant first (`fuel` bounds the digit
count; `n` digits always suffice for the value `n`). -/
def toHexAux : Nat → Nat → List Char
  | _, 0 => []
  | 0, _ + 1 => []
  | fuel + 1, n + 1 => hexDigit ((n + 1) % 16) :: toHexAux fuel ((n + 1) / 16)

/-- Hexadecimal digits of `n`, least significant first. -/
def toHexRev (n : Nat) : List Char :=
  toHexAux n n

/-- Python `f"#\x7bvalue:06X\x7d"`: `#` plus the value in upper-case hex,
zero-padded to at least six digits. -/
def hashHex (n : Nat) : String :=
  String.mk ('#' :: (List.replicate (6 - (toHexRev n).reverse.length) '0' ++ (toHexRev n).reverse))

/-- Source `roles = [r for r in member.roles if not r.is_default()]`. -/
def nonDefaultRoles (memberRoles : List Role) : List Role :=
  memberRoles.filter (fun r => !r.is_default)

/-- Source `colored_roles = [r for r in roles if r.colour.value != 0]`. -/
def coloredRoles (roles : List Role) : List Role :=
  roles.filter (fun r => r.colour != 0)

/-- Source `color_role = max(colored_roles, key=...) if colored_roles else None`. -/
def colorRoleOf (roles : List Role) : Option Role :=
  match coloredRoles roles with
  | [] => none
  | h :: t => some (maxByPos h t)

/-- Source `color_hex` computed from the non-default role list. -/
def colorHexOf (roles : List Role) : Option String :=
  (colorRoleOf roles).map (fun r => hashHex r.colour)

/-- The role whose name becomes the chat tag: highest hoisted role,
else the color role, else the highest role; `None` when `roles` is empty. -/
def tagRoleOf (roles : List Role) : Option Role :=
  match roles with
  | [] => none
  | h :: t =>
    match roles.filter (fun r => r.hoist) with
    | hh :: ht => some (maxByPos hh ht)
    | [] =>
      match colorRoleOf roles with
      | some cr => some cr
      | none => some (maxByPos h t)

/-- The bracketed chat tag (`prefix = f"[\x7bprefix_role.name\x7d]"`). -/
def tagOf (roles : List Role) : Option String :=
  (tagRoleOf roles).map (fun r => "[" ++ r.name ++ "]")

/-- Source `color_hex` as computed from the member's full role list. -/
def mcColor (memberRoles : List Role) : Option String :=
  colorHexOf (nonDefaultRoles memberRoles)

/-- The chat tag as computed from the member's full role list. -/
def mcTag (memberRoles : List Role) : Option String :=
  tagOf (nonDefaultRoles memberRoles)

/- ---------------------------------------------------------------
   Permission profile recomputation and the `mc_perm_query` reply
   (mc_ws.py lines 341-388 and 626-754).
   --------------------------------------------------------------- -/

/-- A resolved guild member as seen by `_recompute_perm_profile_for_uuid`. -/
structure Member where
  id : Nat
  name : String
  display_name : String
  global_name : Option String
  roles : List Role
  perms : GuildPermissions
deriving DecidableEq, Repr

/-- The profile dict returned by `_recompute_perm_profile_for_uuid` and
built from a cache row (keys prefix/color_hex/can_kick/can_ban/can_timeout/is_staff;
the permission entries are Python ints 0/1). -/
structure PermProfile where
  tag : Option String
  color_hex : Option String
  can_kick : Int
  can_ban : Int
  can_timeout : Int
  is_staff : Int
deriving DecidableEq, Repr

/-- A row of the `mc_perm_cache` table (primary key `(guild_id, mc_uuid)`). -/
structure PermCacheRow where
  guild_id : Nat
  mc_uuid : String
  mc_name : String
  can_kick : Int
  can_ban : Int
  can_timeout : Int
  is_staff : Int
  tag : Option String
  color_hex : Option String
  last_sync : Nat
deriving DecidableEq, Repr

/-- A row of the `user_links` table as read by
`SELECT guild_id, discord_id, mc_name FROM user_links WHERE mc_uuid=? LIMIT 1`. -/
structure UserLinkRow where
  guild_id : Nat
  discord_id : Nat
  mc_name : String
deriving DecidableEq, Repr

/-- Environment of `_recompute_perm_profile_for_uuid`: the bot reference,
the first `user_links` row per uuid, the `guild_settings.crossmod_enabled`
value, and the resolved live member (None covers bot-not-in-guild and
`fetch_member` failure alike). -/
structure PermEnv where
  botSet : Bool
  userLink : String → Option UserLinkRow
  crossmod : Nat → Option Int
  resolveMember : Nat → Nat → Option Member

/-- Source `int(b)` for a Python bool. -/
def intOfBool (b : Bool) : Int :=
  if b then 1 else 0

/-- The pure part of `_recompute_perm_profile_for_uuid`: the returned
profile, or `none` on any of the early exits (no bot, no link row,
cross-moderation disabled, member unresolvable). -/
def recomputeProfile (env : PermEnv) (mc_uuid : String) : Option PermProfile :=
  if !env.botSet then none
  else
    match env.userLink mc_uuid with
    | none => none
    | some link =>
      if env.crossmod link.guild_id = some 0 then none
      else
        match env.resolveMember link.guild_id link.discord_id with
        | none => none
        | some m =>
          some
            { tag := mcTag m.roles
              color_hex := mcColor m.roles
              can_kick := intOfBool (can_kick m.perms)
              can_ban := intOfBool (can_ban m.perms)
              can_timeout := intOfBool (can_timeout m.perms)
              is_staff := intOfBool (is_staff m.perms) }

/-- Source `INSERT OR REPLACE INTO mc_perm_cache` keyed by `(guild_id, mc_uuid)`. -/
def upsertCache (cache : List PermCacheRow) (row : PermCacheRow) : List PermCacheRow :=
  row :: cache.filter (fun r => !(r.guild_id == row.guild_id && r.mc_uuid == row.mc_uuid))

/-- The cache row written by a successful recompute. -/
def cacheRowOf (link : UserLinkRow) (mc_uuid : String) (p : PermProfile) (now : Nat) :
    PermCacheRow :=
  { guild_id := link.guild_id
    mc_uuid := mc_uuid
    mc_name := link.mc_name
    can_kick := p.can_kick
    can_ban := p.can_ban
    can_timeout := p.can_timeout
    is_staff := p.is_staff
    tag := p.tag
    color_hex := p.color_hex
    last_sync := now }

/-- Source `SELECT ... FROM mc_perm_cache WHERE mc_uuid=? ORDER BY last_sync DESC LIMIT 1`
(first row among those of maximal `last_sync`; the SQL leaves ties unspecified). -/
def cacheLookup (cache : List PermCacheRow) (mc_uuid : String) : Option PermCacheRow :=
  match cache.filter (fun r => r.mc_uuid == mc_uuid) with
  | [] => none
  | h :: t => some (t.foldl (fun best r => if best.last_sync < r.last_sync then r else best) h)

/-- Profile dict built from a cache row in the fallback branch. -/
def profileOfRow (r : PermCacheRow) : PermProfile :=
  { tag := r.tag
    color_hex := r.color_hex
    can_kick := r.can_kick
    can_ban := r.can_ban
    can_timeout := r.can_timeout
    is_staff := r.is_staff }

/-- The `mc_permset` reply dict: `uuid` always present; `prefix`/`color`
present only when the profile holds a non-None value; the four permission
entries present exactly when a profile (live or cached) was available. -/
structure PermResp where
  uuid : String
  tag : Option String
  color : Option String
  can_kick : Option Int
  can_ban : Option Int
  can_timeout : Option Int
  is_staff : Option Int
deriving DecidableEq, Repr

/-- Reply construction of the `mc_perm_query` branch (mc_ws.py 370-379). -/
def buildPermResp (uuid : String) (profile : Option PermProfile) : PermResp :=
  match profile with
  | none => { uuid := uuid, tag := none, color := none,
              can_kick := none, can_ban := none, can_timeout := none, is_staff := none }
  | some p => { uuid := uuid, tag := p.tag, color := p.color_hex,
                can_kick := some p.can_kick, can_ban := some p.can_ban,
                can_timeout := some p.can_timeout, is_staff := some p.is_staff }

/-- Outcome of one `mc_perm_query` frame: the reply, the cache after the
handler, and whether a recompute attempt / cache read happened at all. -/
structure PermQueryResult where
  resp : PermResp
  cache : List PermCacheRow
  didRecompute : Bool
  didCacheRead : Bool
deriving Repr

/-- The `mc_perm_query` branch of `ws_handler` (mc_ws.py 341-388):
normalize the uuid (`strip().lower()`), reply immediately on empty,
else try the live recompute (which writes the cache on success),
else fall back to the newest cache row. -/
def mcPermQuery (env : PermEnv) (cache : List PermCacheRow) (rawUuid : Option String)
    (now : Nat) : PermQueryResult :=
  let uuid := pyLower (pyStrip (rawUuid.getD ""))
  if uuid = "" then
    { resp := buildPermResp uuid none
      cache := cache
      didRecompute := false
      didCacheRead := false }
  else
    match recomputeProfile env uuid with
    | some p =>
      let cache' :=
        match env.userLink uuid with
        | some link => upsertCache cache (cacheRowOf link uuid p now)
        | none => cache
      { resp := buildPermResp uuid (some p)
        cache := cache'
        didRecompute := true
        didCacheRead := false }
    | none =>
      { resp := buildPermResp uuid ((cacheLookup cache uuid).map profileOfRow)
        cache := cache
        didRecompute := true
        didCacheRead := true }

/- ---------------------------------------------------------------
   The `mc_links` table and the outbound send loops
   (`send_dc_chat` / `send_dc_admin` / `send_dc_notify`,
   mc_ws.py lines 451-624).
   --------------------------------------------------------------- -/

/-- A row of the `mc_links` table (primary key `(guild_id, channel_id)`). -/
structure LinkRow where
  guild_id : Nat
  channel_id : Nat
  token_hash : String
  server_name : String
  status : String
  last_seen : Nat
deriving DecidableEq, Repr

/-- Live-socket environment of the send loops: `_connections.get(th)`
yields the socket (the `"ws"` entry) and `ws.send_str` either succeeds
or raises (`sendOk`). -/
structure WsEnv where
  conns : String → Option Nat
  sendOk : Nat → Bool

/-- Source `SELECT token_hash FROM mc_links WHERE guild_id=? AND channel_id=? AND status='connected'`. -/
def connectedLinks (links : List LinkRow) (guild_id channel_id : Nat) : List LinkRow :=
  links.filter (fun l =>
    l.guild_id == guild_id && l.channel_id == channel_id && l.status == "connected")

/-- One row of the delivery loop succeeds when a live socket exists for the
hash and the write does not raise. -/
def writeOk (env : WsEnv) (l : LinkRow) : Bool :=
  match env.conns l.token_hash with
  | none => false
  | some sock => env.sendOk sock

/-- The shared delivery loop: try each row, count the successful writes,
swallow per-socket failures. -/
def deliverLoop (env : WsEnv) (rows : List LinkRow) : Nat :=
  rows.foldl
    (fun delivered r =>
      match env.conns r.token_hash with
      | none => delivered
      | some sock => if env.sendOk sock then delivered + 1 else delivered)
    0

/-- The `dc_chat` payload (fields beyond op/user/guild/text only when given). -/
structure DcChatPayload where
  user : String
  guild : String
  text : String
  tag : Option String
  color : Option String
deriving DecidableEq, Repr

/-- Source `send_dc_chat`: returns the number of live sockets written to
(0 when no connected link is bound to the channel). -/
def send_dc_chat (env : WsEnv) (links : List LinkRow) (guild_id channel_id : Nat)
    (user guild_name text : String) (tag color : Option String) : Nat :=
  let rows := connectedLinks links guild_id channel_id
  if rows.isEmpty then 0
  else
    let _payload : DcChatPayload :=
      { user := user, guild := guild_name, text := text, tag := tag, color := color }
    deliverLoop env rows

/-- The `dc_admin` payload. -/
structure DcAdminPayload where
  action : String
  player : String
  reason : String
  issued_by : String
  minutes : Int
deriving DecidableEq, Repr

/-- Source `send_dc_admin`: same loop, admin-command payload. -/
def send_dc_admin (env : WsEnv) (links : List LinkRow) (guild_id channel_id : Nat)
    (action player reason issued_by : String) (minutes : Int) : Nat :=
  let rows := connectedLinks links guild_id channel_id
  if rows.isEmpty then 0
  else
    let _payload : DcAdminPayload :=
      { action := action, player := player, reason := reason,
        issued_by := issued_by, minutes := minutes }
    deliverLoop env rows

/-- Source `send_dc_notify`: same loop, ping-notify payload. -/
def send_dc_notify (env : WsEnv) (links : List LinkRow) (guild_id channel_id : Nat)
    (mc_name : String) : Nat :=
  let rows := connectedLinks links guild_id channel_id
  if rows.isEmpty then 0
  else
    let _payload : String := mc_name
    deliverLoop env rows

/- ---------------------------------------------------------------
   Auth and teardown of a websocket session
   (`ws_handler`, mc_ws.py lines 292-327 and 433-447).
   --------------------------------------------------------------- -/

/-- Registry and persisted state touched by auth/teardown:
the `mc_links` rows, the `_connections` dict (token_hash to live socket),
and the `_pending_notifies` buffer. -/
structure WsState where
  links : List LinkRow
  conns : List (String × Nat)
  notifies : List (String × String)
deriving DecidableEq, Repr

/-- Source `_connections[th] = {...}`: replace-or-insert in the registry. -/
def connSet (conns : List (String × Nat)) (th : String) (sock : Nat) :
    List (String × Nat) :=
  (th, sock) :: conns.filter (fun e => e.1 != th)

/-- Source `_connections.get(th)`. -/
def connGet (conns : List (String × Nat)) (th : String) : Option Nat :=
  (conns.find? (fun e => e.1 == th)).map (fun e => e.2)

/-- Source `_connections.pop(th, None)`. -/
def connPop (conns : List (String × Nat)) (th : String) : List (String × Nat) :=
  conns.filter (fun e => e.1 != th)

/-- The `op == "auth"` branch of `ws_handler` for a non-empty token:
register the connection (replacing any previous entry for the hash),
set every matching link row to 'connected', and buffer the connect
notification. `hashFn` stands for `_token_hash`. Returns the new state
and the session's token hash. -/
def wsAuth (hashFn : String → String) (st : WsState) (sock : Nat)
    (token server_name : String) (now : Nat) : WsState × Option String :=
  if pyStrip token = "" then (st, none)
  else
    let th := hashFn token
    let links' := st.links.map (fun l =>
      if l.token_hash == th then
        { l with status := "connected", server_name := server_name, last_seen := now }
      else l)
    ({ links := links'
       conns := connSet st.conns th sock
       notifies := st.notifies ++ [(th, "connected")] }, some th)

/-- The `finally` block of `ws_handler`: when the session authenticated,
set every matching link row to 'disconnected' (unconditionally), buffer
the disconnect notification, and pop the registry entry only when it
still holds this very socket. -/
def wsTeardown (st : WsState) (sock : Nat) (sessionHash : Option String)
    (now : Nat) : WsState :=
  match sessionHash with
  | none => st
  | some th =>
    let links' := st.links.map (fun l =>
      if l.token_hash == th then { l with status := "disconnected", last_seen := now }
      else l)
    let notifies' := st.notifies ++ [(th, "disconnected")]
    let conns' :=
      match connGet st.conns th with
      | some s => if s == sock then connPop st.conns th else st.conns
      | none => st.conns
    { links := links', conns := conns', notifies := notifies' }

/-- Status of the link row bound to a hash, if any (first matching row). -/
def linkStatus (st : WsState) (th : String) : Option String :=
  (st.links.find? (fun l => l.token_hash == th)).map (fun l => l.status)

/- ---------------------------------------------------------------
   Readiness gate and pending buffers
   (`_pending_notifies` / `_pending_mc_msgs` / `_flush_pending`,
   mc_ws.py lines 50-53, 183-206, 313-343, 423-428, 441-443).
   --------------------------------------------------------------- -/

/-- A buffered inbound frame: chat/event/moderation frames carry their
`op` plus a payload identity; a notice is a connect/disconnect text. -/
structure McMsg where
  op : String
  pid : Nat
deriving DecidableEq, Repr

/-- An arrival at the gateway that the spec calls relay-worthy. -/
inductive Arrival where
  | notice (th : String) (text : String)
  | msg (th : String) (m : McMsg)
deriving DecidableEq, Repr

/-- The two pending buffers of the module. -/
structure PendingState where
  notifies : List (String × String)
  msgs : List (String × McMsg)
deriving DecidableEq, Repr

def emptyPending : PendingState :=
  { notifies := [], msgs := [] }

/-- Source `op` values that `ws_handler` routes through the readiness gate. -/
def relayWorthyOp (op : String) : Bool :=
  op == "mc_chat" || op == "mc_event" || op == "mc_mod"

/-- Routing of one arrival by `ws_handler`, given the readiness flag:
chat/event/moderation frames are delivered directly when ready and
buffered in `_pending_mc_msgs` otherwise; connect/disconnect notices are
always appended to `_pending_notifies` (there is no ready check on that
path). Returns the new buffers and the directly delivered frames. -/
def stepInbound (ready : Bool) (st : PendingState) : Arrival → PendingState × List Arrival
  | .notice th text => ({ st with notifies := st.notifies ++ [(th, text)] }, [])
  | .msg th m =>
    if relayWorthyOp m.op then
      if ready then (st, [.msg th m])
      else ({ st with msgs := st.msgs ++ [(th, m)] }, [])
    else (st, [])

/-- Buffers after a list of pre-readiness arrivals. -/
def enqueueAll (st : PendingState) (evs : List Arrival) : PendingState :=
  evs.foldl (fun s e => (stepInbound false s e).1) st

/-- Replay sequence of `_flush_pending`: every buffered notice in buffer
order (via `_notify_bound_channels`), then every buffered message in
buffer order, routed by its `op` to the normal relay path (frames with an
unrecognized `op` are silently skipped by the if/elif chain). -/
def flushReplay (st : PendingState) : List Arrival :=
  st.notifies.map (fun e => Arrival.notice e.1 e.2) ++
    (st.msgs.filter (fun e => relayWorthyOp e.2.op)).map (fun e => Arrival.msg e.1 e.2)

/-- Whether an arrival is a connect/disconnect notice. -/
def isNotice : Arrival → Bool
  | .notice _ _ => true
  | .msg _ _ => false

/- ---------------------------------------------------------------
   Link tokens: the in-game `mc_link_request` frame (mc_ws.py 390-421)
   and the `/linkdiscord` command (cogs/mc_identity.py 30-93).
   --------------------------------------------------------------- -/

/-- A row of the `link_tokens` table (primary key `token`). -/
structure LinkTokenRow where
  mc_uuid : String
  mc_name : String
  created_at : Nat
  used : Bool
deriving DecidableEq, Repr

/-- The persisted state the two linking operations touch. -/
structure LinkDb where
  tokens : List (String × LinkTokenRow)
  userLinks : List ((Nat × Nat) × (String × String))
deriving DecidableEq, Repr

/-- Source `SELECT ... FROM link_tokens WHERE token=?`. -/
def tokenGet (tokens : List (String × LinkTokenRow)) (code : String) :
    Option LinkTokenRow :=
  (tokens.find? (fun e => e.1 == code)).map (fun e => e.2)

/-- Source `INSERT OR REPLACE INTO link_tokens` keyed by `token`. -/
def tokenPut (tokens : List (String × LinkTokenRow)) (code : String)
    (row : LinkTokenRow) : List (String × LinkTokenRow) :=
  (code, row) :: tokens.filter (fun e => e.1 != code)

/-- Source `UPDATE link_tokens SET used=1 WHERE token=?`. -/
def tokenMarkUsed (tokens : List (String × LinkTokenRow)) (code : String) :
    List (String × LinkTokenRow) :=
  tokens.map (fun e => if e.1 == code then (e.1, { e.2 with used := true }) else e)

/-- Source `INSERT OR REPLACE INTO user_links` keyed by `(guild_id, discord_id)`. -/
def userLinkPut (ul : List ((Nat × Nat) × (String × String)))
    (guild_id discord_id : Nat) (mc_uuid mc_name : String) :
    List ((Nat × Nat) × (String × String)) :=
  ((guild_id, discord_id), (mc_uuid, mc_name)) ::
    ul.filter (fun e => e.1 != (guild_id, discord_id))

/-- The `op == "mc_link_request"` branch of `ws_handler`: empty code or
name means a failure ack with no state change; otherwise the token row is
stored or overwritten with `used = 0`. Returns the new state and the ack. -/
def mcLinkRequest (st : LinkDb) (code mc_uuid mc_name : String) (now : Nat) :
    LinkDb × Bool :=
  let code := pyStrip code
  let mc_uuid := pyStrip mc_uuid
  let mc_name := pyStrip mc_name
  if code = "" ∨ mc_name = "" then (st, false)
  else
    let row : LinkTokenRow :=
      { mc_uuid := mc_uuid, mc_name := mc_name, created_at := now, used := false }
    ({ st with tokens := tokenPut st.tokens code row }, true)

/-- Outcomes of the `/linkdiscord` slash command. -/
inductive LinkAck where
  | notInGuild
  | emptyCode
  | unknownCode
  | alreadyUsed
  | expired
  | linked
deriving DecidableEq, Repr

/-- The `/linkdiscord` command: trim the code, look the token up, refuse
used or over-24h-old tokens, otherwise create the user link and mark the
token used. -/
def linkdiscord (st : LinkDb) (inGuild : Bool) (guild_id discord_id : Nat)
    (code : String) (now : Nat) : LinkDb × LinkAck :=
  if !inGuild then (st, .notInGuild)
  else
    let token := pyStrip code
    if token = "" then (st, .emptyCode)
    else
      match tokenGet st.tokens token with
      | none => (st, .unknownCode)
      | some row =>
        if row.used then (st, .alreadyUsed)
        else if row.created_at ≠ 0 ∧ now - row.created_at > 3600 * 24 then (st, .expired)
        else
          ({ tokens := tokenMarkUsed st.tokens token
             userLinks := userLinkPut st.userLinks guild_id discord_id row.mc_uuid
               (if row.mc_name = "" then "(unknown)" else row.mc_name) },
            .linked)

/- ---------------------------------------------------------------
   Mention translation (`_apply_mc_mentions_to_discord`,
   mc_ws.py lines 71-171; regex `@([A-Za-z0-9_]\x7b2,32\x7d)`).
   --------------------------------------------------------------- -/

/-- A character of the regex class `[A-Za-z0-9_]`. -/
def isWordChar (c : Char) : Bool :=
  c.isAlphanum || c == '_'

/-- The tokens matched by `MC_MENTION_RE.finditer`, in text order:
after an `@`, a greedy run of two to at most 32 word characters. -/
def scanTokens : List Char → List (List Char)
  | [] => []
  | c :: rest =>
    if c = '@' then
      if 2 ≤ (rest.takeWhile isWordChar).length then
        (rest.takeWhile isWordChar).take 32 ::
          scanTokens (rest.drop ((rest.takeWhile isWordChar).take 32).length)
      else scanTokens rest
    else scanTokens rest
termination_by l => l.length
decreasing_by
  · simp only [List.length_drop, List.length_cons]
    omega
  · simp
  · simp

/-- Source `re.sub(MC_MENTION_RE, repl, text)`: one pass over the original text,
replacing each match for which `f` yields a replacement and keeping every
other character (and every unreplaced match) literally. -/
def substTokens (f : List Char → Option (List Char)) : List Char → List Char
  | [] => []
  | c :: rest =>
    if c = '@' then
      if 2 ≤ (rest.takeWhile isWordChar).length then
        (match f ((rest.takeWhile isWordChar).take 32) with
         | some rep => rep
         | none => '@' :: (rest.takeWhile isWordChar).take 32) ++
          substTokens f (rest.drop ((rest.takeWhile isWordChar).take 32).length)
      else c :: substTokens f rest
    else c :: substTokens f rest
termination_by l => l.length
decreasing_by
  · simp only [List.length_drop, List.length_cons]
    omega
  · simp
  · simp

/-- The lower-cased name keys one member contributes to `name_to_member`:
username always, display name and global name when truthy. -/
def nameKeys (m : Member) : List String :=
  [pyLower m.name] ++
    (if m.display_name ≠ "" then [pyLower m.display_name] else []) ++
    (match m.global_name with
     | some g => if g ≠ "" then [pyLower g] else []
     | none => [])

/-- Source `name_to_member.get(n)`: members are inserted in guild order with
`setdefault`, so the first member carrying the key wins. -/
def nameToMember (members : List Member) (n : String) : Option Member :=
  members.find? (fun m => (nameKeys m).contains n)

/-- Source `token_to_id` for one token: the first member matching the lower-cased
token, honored only when that member's id has a `user_links` row. -/
def tokenToId (members : List Member) (linked : List Nat) (tok : List Char) :
    Option Nat :=
  match nameToMember members (String.mk (lowerChars tok)) with
  | none => none
  | some m => if linked.contains m.id then some m.id else none

/-- The replacement text `f"<@\x7bdid\x7d>"`. -/
def mentionRepl (did : Nat) : List Char :=
  '<' :: '@' :: (Nat.repr did).data ++ ['>']

/-- Environment of `_apply_mc_mentions_to_discord`: the bot reference, the
first `mc_links` guild per token hash, the guild's member list, and the
linked discord ids per guild. -/
structure MentionEnv where
  botSet : Bool
  mcLinkGuild : String → Option Nat
  guildMembers : Nat → Option (List Member)
  linkedIds : Nat → List Nat

/-- Source `_apply_mc_mentions_to_discord`: early exits mirror the source
(no session hash, no `@`, no regex match, no link row, no bot, no guild,
no linked ids, no resolvable token); otherwise one `re.sub` pass. -/
def applyMcMentions (env : MentionEnv) (sessionHash : Option String)
    (text : String) : String :=
  match sessionHash with
  | none => text
  | some th =>
    if !text.data.contains '@' then text
    else
      let found := scanTokens text.data
      if found.isEmpty then text
      else
        match env.mcLinkGuild th with
        | none => text
        | some gid =>
          if !env.botSet then text
          else
            match env.guildMembers gid with
            | none => text
            | some members =>
              let linked := env.linkedIds gid
              if linked.isEmpty then text
              else
                let f := fun tok => (tokenToId members linked tok).map mentionRepl
                if (found.filter (fun t => (f t).isSome)).isEmpty then text
                else String.mk (substTokens f text.data)

/- ---------------------------------------------------------------
   Derived definitions used by the statements below.
   --------------------------------------------------------------- -/

/-- The profile the `mc_perm_query` reply is built from for a non-empty
uuid: the live recompute when it succeeds, else the newest cache row. -/
def resolvedProfile (env : PermEnv) (cache : List PermCacheRow) (uuid : String) :
    Option PermProfile :=
  match recomputeProfile env uuid with
  | some p => some p
  | none => (cacheLookup cache uuid).map profileOfRow

/-- The notification entry an arrival contributes to `_pending_notifies`. -/
def noticePair : Arrival → Option (String × String)
  | .notice th text => some (th, text)
  | .msg _ _ => none

/-- The message entry an arrival contributes to `_pending_mc_msgs`
(only chat/event/moderation frames are buffered). -/
def msgPair : Arrival → Option (String × McMsg)
  | .notice _ _ => none
  | .msg th m => if relayWorthyOp m.op then some (th, m) else none

/-- Scenario role A of the spec: hoisted, uncolored, lower ordinal. -/
def roleA : Role :=
  { name := "A", position := 1, colour := 0, hoist := true, is_default := false }

/-- Scenario role B of the spec: not hoisted, colored, higher ordinal. -/
def roleB : Role :=
  { name := "B", position := 2, colour := 16711680, hoist := false, is_default := false }

/-- A permission environment in which every lookup fails. -/
def permEnvFail : PermEnv :=
  { botSet := false
    userLink := fun _ => none
    crossmod := fun _ => none
    resolveMember := fun _ _ => none }

/-- A linked guild member named Alex with discord id 42. -/
def alexMember : Member :=
  { id := 42
    name := "Alex"
    display_name := "Alex"
    global_name := none
    roles := []
    perms := ⟨false, false, false, false, false, false, false⟩ }

/-- A mention environment with one guild (id 7) holding Alex, linked. -/
def envW : MentionEnv :=
  { botSet := true
    mcLinkGuild := fun h => if h = "th1" then some 7 else none
    guildMembers := fun g => if g = 7 then some [alexMember] else none
    linkedIds := fun g => if g = 7 then [42] else [] }

/- ===============================================================
   Theorems.
   =============================================================== -/

/-- C5: for every resolved member, `can_kick` is the kick bit or
administrator, `can_ban` the ban bit or administrator, `can_timeout` the
moderation bit or administrator, and `is_staff` is the disjunction of the
three capabilities with manage-guild, manage-roles, manage-messages and
administrator; an administrator-only bitset resolves all four to true. -/
theorem C5_capabilities (p : GuildPermissions) :
    can_kick p = (p.kick_members || p.administrator) ∧
    can_ban p = (p.ban_members || p.administrator) ∧
    can_timeout p = (p.moderate_members || p.administrator) ∧
    is_staff p = (can_kick p || can_ban p || can_timeout p || p.manage_guild ||
      p.manage_roles || p.manage_messages || p.administrator) ∧
    (p.administrator = true →
      can_kick p = true ∧ can_ban p = true ∧ can_timeout p = true ∧ is_staff p = true) := by
  obtain ⟨k, b, m, g, r, s, a⟩ := p
  revert k b m g r s a
  decide

/-- Witness for C5 at the administrator-only permission set. -/
theorem C5_capabilities_w :
    can_kick ⟨false, false, false, false, false, false, true⟩ = true ∧
    can_ban ⟨false, false, false, false, false, false, true⟩ = true ∧
    can_timeout ⟨false, false, false, false, false, false, true⟩ = true ∧
    is_staff ⟨false, false, false, false, false, false, true⟩ = true :=
  (C5_capabilities ⟨false, false, false, false, false, false, true⟩).2.2.2.2 rfl

/-- C10: a permission query whose account id is empty or whitespace-only
after trimming is answered immediately with only the (empty) echoed id;
no recompute is attempted, the cache is neither read nor written, and all
state is unchanged. -/
theorem C10_empty_uuid (env : PermEnv) (cache : List PermCacheRow)
    (rawUuid : Option String) (now : Nat)
    (h : pyStrip (rawUuid.getD "") = "") :
    mcPermQuery env cache rawUuid now =
      { resp := { uuid := "", tag := none, color := none, can_kick := none,
                  can_ban := none, can_timeout := none, is_staff := none }
        cache := cache
        didRecompute := false
        didCacheRead := false } := by
  unfold mcPermQuery
  rw [h]
  rfl

/-- Witness for C10 at a whitespace-only account id. -/
theorem C10_empty_uuid_w :
    mcPermQuery permEnvFail [] (some "   ") 0 =
      { resp := { uuid := "", tag := none, color := none, can_kick := none,
                  can_ban := none, can_timeout := none, is_staff := none }
        cache := []
        didRecompute := false
        didCacheRead := false } :=
  C10_empty_uuid permEnvFail [] (some "   ") 0 (by decide)

/-- C4: every permission-query reply echoes the (normalized) requested
account id; for a non-empty id the reply is built from the resolved
profile with optional fields present only when resolvable, never null
placeholders; when the live recompute fails but a cache row exists the
reply equals that row's fields exactly and the cache is not written; on
total failure the reply is the echoed id alone. -/
theorem C4_perm_reply (env : PermEnv) (cache : List PermCacheRow)
    (rawUuid : Option String) (now : Nat) :
    let uuid := pyLower (pyStrip (rawUuid.getD ""))
    let res := mcPermQuery env cache rawUuid now
    res.resp.uuid = uuid ∧
    (uuid ≠ "" → res.resp = buildPermResp uuid (resolvedProfile env cache uuid)) ∧
    (∀ p, resolvedProfile env cache uuid = some p → uuid ≠ "" →
      res.resp.tag = p.tag ∧ res.resp.color = p.color_hex ∧
      res.resp.can_kick = some p.can_kick ∧ res.resp.can_ban = some p.can_ban ∧
      res.resp.can_timeout = some p.can_timeout ∧ res.resp.is_staff = some p.is_staff) ∧
    (∀ row, recomputeProfile env uuid = none → cacheLookup cache uuid = some row →
      uuid ≠ "" →
      res.resp.tag = row.tag ∧ res.resp.color = row.color_hex ∧
      res.resp.can_kick = some row.can_kick ∧ res.resp.can_ban = some row.can_ban ∧
      res.resp.can_timeout = some row.can_timeout ∧ res.resp.is_staff = some row.is_staff ∧
      res.cache = cache) ∧
    (resolvedProfile env cache uuid = none →
      res.resp = { uuid := uuid, tag := none, color := none, can_kick := none,
                   can_ban := none, can_timeout := none, is_staff := none }) := by
  dsimp only
  by_cases h0 : pyLower (pyStrip (rawUuid.getD "")) = ""
  · refine ⟨?_, ?_, ?_, ?_, ?_⟩ <;>
      simp [mcPermQuery, h0, buildPermResp]
  · cases hlive : recomputeProfile env (pyLower (pyStrip (rawUuid.getD ""))) with
    | some p =>
      refine ⟨?_, ?_, ?_, ?_, ?_⟩ <;>
        simp [mcPermQuery, h0, hlive, buildPermResp, resolvedProfile]
    | none =>
      cases hrow : cacheLookup cache (pyLower (pyStrip (rawUuid.getD ""))) with
      | some row =>
        refine ⟨?_, ?_, ?_, ?_, ?_⟩ <;>
          simp [mcPermQuery, h0, hlive, hrow, buildPermResp, resolvedProfile, profileOfRow]
      | none =>
        refine ⟨?_, ?_, ?_, ?_, ?_⟩ <;>
          simp [mcPermQuery, h0, hlive, hrow, buildPermResp, resolvedProfile]

/-- Witness for C4: the spec scenario of an unlinked, uncached account id
`"abc"`, whose reply is exactly the echoed id with no other fields. -/
theorem C4_perm_reply_w :
    (mcPermQuery permEnvFail [] (some "abc") 0).resp =
      { uuid := "abc", tag := none, color := none, can_kick := none,
        can_ban := none, can_timeout := none, is_staff := none } := by
  have h := (C4_perm_reply permEnvFail [] (some "abc") 0).2.2.2.2 (by decide)
  exact h.trans (by decide)

/-- The shared delivery loop counts exactly the rows whose write succeeds. -/
theorem deliverLoop_eq_countP (env : WsEnv) (rows : List LinkRow) :
    deliverLoop env rows = rows.countP (fun l => writeOk env l) := by
  unfold deliverLoop
  suffices h : ∀ n : Nat,
      rows.foldl
        (fun delivered r =>
          match env.conns r.token_hash with
          | none => delivered
          | some sock => if env.sendOk sock then delivered + 1 else delivered)
        n = n + rows.countP (fun l => writeOk env l) by
    simpa using h 0
  induction rows with
  | nil => intro n; simp
  | cons hd tl ih =>
    intro n
    have hw : writeOk env hd =
        (match env.conns hd.token_hash with
         | none => false
         | some sock => env.sendOk sock) := rfl
    cases hc : env.conns hd.token_hash with
    | none =>
      have hwf : writeOk env hd = false := by rw [hw, hc]
      simp only [List.foldl_cons, List.countP_cons, hc, hwf, ih]
      simp
    | some sock =>
      cases hs : env.sendOk sock with
      | false =>
        have hwf : writeOk env hd = false := by rw [hw, hc]; exact hs
        simp only [List.foldl_cons, List.countP_cons, hc, hs, hwf, ih]
        simp
      | true =>
        have hwt : writeOk env hd = true := by rw [hw, hc]; exact hs
        simp only [List.foldl_cons, List.countP_cons, hc, hs, hwt, ih]
        simp
        omega

/-- C7: each outbound send function returns exactly the number of live
sockets the write succeeded on; it returns zero (not an error) when no
connected link is bound to the channel; and one failing socket does not
prevent delivery to the remaining sockets (the result is still the sum
of the successes around it). -/
theorem C7_send_counts (env : WsEnv) (links : List LinkRow) (guild_id channel_id : Nat)
    (user guild_name text : String) (tag color : Option String)
    (action player reason issued_by : String) (minutes : Int) (mc_name : String) :
    (send_dc_chat env links guild_id channel_id user guild_name text tag color =
        (connectedLinks links guild_id channel_id).countP (fun l => writeOk env l) ∧
      send_dc_admin env links guild_id channel_id action player reason issued_by minutes =
        (connectedLinks links guild_id channel_id).countP (fun l => writeOk env l) ∧
      send_dc_notify env links guild_id channel_id mc_name =
        (connectedLinks links guild_id channel_id).countP (fun l => writeOk env l)) ∧
    (connectedLinks links guild_id channel_id = [] →
      send_dc_chat env links guild_id channel_id user guild_name text tag color = 0 ∧
      send_dc_admin env links guild_id channel_id action player reason issued_by minutes = 0 ∧
      send_dc_notify env links guild_id channel_id mc_name = 0) ∧
    (∀ l1 bad l2, connectedLinks links guild_id channel_id = l1 ++ bad :: l2 →
      writeOk env bad = false →
      send_dc_chat env links guild_id channel_id user guild_name text tag color =
        l1.countP (fun l => writeOk env l) + l2.countP (fun l => writeOk env l)) := by
  have hcount : ∀ rows : List LinkRow,
      (if rows.isEmpty then 0 else deliverLoop env rows) =
        rows.countP (fun l => writeOk env l) := by
    intro rows
    cases rows with
    | nil => simp
    | cons hd tl => simp [deliverLoop_eq_countP]
  refine ⟨⟨?_, ?_, ?_⟩, ?_, ?_⟩
  · simpa [send_dc_chat] using hcount (connectedLinks links guild_id channel_id)
  · simpa [send_dc_admin] using hcount (connectedLinks links guild_id channel_id)
  · simpa [send_dc_notify] using hcount (connectedLinks links guild_id channel_id)
  · intro hnil
    refine ⟨?_, ?_, ?_⟩ <;> simp [send_dc_chat, send_dc_admin, send_dc_notify, hnil]
  · intro l1 bad l2 hsplit hbad
    have h1 : send_dc_chat env links guild_id channel_id user guild_name text tag color =
        (connectedLinks links guild_id channel_id).countP (fun l => writeOk env l) := by
      simpa [send_dc_chat] using hcount (connectedLinks links guild_id channel_id)
    rw [h1, hsplit, List.countP_append, List.countP_cons, hbad]
    simp

/-- Witness for C7: two connected rows, the first write fails, the second
succeeds; all three send functions deliver exactly once, and the
no-active-link case returns zero. -/
theorem C7_send_counts_w :
    send_dc_chat ⟨fun h => if h = "h1" then some 1 else some 2, fun s => s == 2⟩
      [⟨1, 2, "h1", "Srv", "connected", 0⟩, ⟨1, 2, "h2", "Srv", "connected", 0⟩]
      1 2 "u" "g" "t" none none = 1 ∧
    send_dc_chat ⟨fun h => if h = "h1" then some 1 else some 2, fun s => s == 2⟩
      [⟨1, 2, "h1", "Srv", "connected", 0⟩, ⟨1, 2, "h2", "Srv", "connected", 0⟩]
      9 9 "u" "g" "t" none none = 0 := by
  constructor
  · have h := (C7_send_counts
        ⟨fun h => if h = "h1" then some 1 else some 2, fun s => s == 2⟩
        [⟨1, 2, "h1", "Srv", "connected", 0⟩, ⟨1, 2, "h2", "Srv", "connected", 0⟩]
        1 2 "u" "g" "t" none none "kick" "p" "r" "i" 0 "n").2.2
        [] ⟨1, 2, "h1", "Srv", "connected", 0⟩ [⟨1, 2, "h2", "Srv", "connected", 0⟩]
        (by decide) (by decide)
    exact h.trans (by decide)
  · have h := ((C7_send_counts
        ⟨fun h => if h = "h1" then some 1 else some 2, fun s => s == 2⟩
        [⟨1, 2, "h1", "Srv", "connected", 0⟩, ⟨1, 2, "h2", "Srv", "connected", 0⟩]
        9 9 "u" "g" "t" none none "kick" "p" "r" "i" 0 "n").2.1 (by decide)).1
    exact h

/-- C1, evaluated at the failing interleaving: socket 1 authenticates,
socket 2 re-authenticates with the same token (replacing the registry
entry), then socket 1's stale teardown runs. The registry guard correctly
keeps socket 2's entry, but the link status is reverted to 'disconnected'
even though the torn-down socket is no longer the registered one; a
subsequent teardown of the registered socket does remove the entry. -/
theorem C1_stale_teardown :
    (let hashFn : String → String := fun t => pyStrip t
     let st0 : WsState :=
       { links := [⟨1, 2, "tok", "Srv", "pending", 0⟩], conns := [], notifies := [] }
     let r1 := wsAuth hashFn st0 1 "tok" "Survival" 10
     let r2 := wsAuth hashFn r1.1 2 "tok" "Survival" 20
     let st3 := wsTeardown r2.1 1 r1.2 30
     let st4 := wsTeardown st3 2 r2.2 40
     linkStatus r2.1 "tok" = some "connected" ∧
     connGet r2.1.conns "tok" = some 2 ∧
     linkStatus st3 "tok" = some "disconnected" ∧
     connGet st3.conns "tok" = some 2 ∧
     connGet st4.conns "tok" = none) := by
  decide

/-- C8 counterexample: a token is consumed (`linked`) and marked used, a
retry is refused while it stays used, but a later in-game link request
overwrites the same code with `used = 0` and the code authenticates
again — contradicting "once marked used, never authenticates again,
including across an overwrite of the same code". -/
theorem C8_counterexample :
    (let s0 : LinkDb := { tokens := [], userLinks := [] }
     let r1 := mcLinkRequest s0 "c0de" "uuid-steve" "Steve" 100
     let r2 := linkdiscord r1.1 true 1 42 "c0de" 200
     let r3 := linkdiscord r2.1 true 1 43 "c0de" 300
     let r4 := mcLinkRequest r2.1 "c0de" "uuid-alex" "Alex" 400
     let r5 := linkdiscord r4.1 true 1 43 "c0de" 500
     r1.2 = true ∧
     r2.2 = LinkAck.linked ∧
     tokenGet r2.1.tokens "c0de" = some ⟨"uuid-steve", "Steve", 100, true⟩ ∧
     r3.2 = LinkAck.alreadyUsed ∧
     r4.2 = true ∧
     tokenGet r4.1.tokens "c0de" = some ⟨"uuid-alex", "Alex", 400, false⟩ ∧
     r5.2 = LinkAck.linked ∧
     tokenGet r5.1.tokens "c0de" = some ⟨"uuid-alex", "Alex", 400, true⟩) := by
  decide

/-- C8 amended: while a link token remains marked used, `/linkdiscord` on
its code always fails with the already-used ack and changes no state; the
only way the code can authenticate again is that an in-game link request
first overwrites it, which installs a fresh row with `used = 0`. -/
theorem C8_used_token (st : LinkDb) (gid did : Nat) (code : String) (now : Nat)
    (row : LinkTokenRow)
    (hnz : pyStrip code ≠ "")
    (hrow : tokenGet st.tokens (pyStrip code) = some row)
    (hused : row.used = true) :
    linkdiscord st true gid did code now = (st, LinkAck.alreadyUsed) ∧
    (∀ uuid name now2, pyStrip name ≠ "" →
      tokenGet (mcLinkRequest st code uuid name now2).1.tokens (pyStrip code) =
        some ⟨pyStrip uuid, pyStrip name, now2, false⟩) := by
  constructor
  · simp [linkdiscord, hnz, hrow, hused]
  · intro uuid name now2 hname
    simp [mcLinkRequest, hnz, hname, tokenGet, tokenPut]

/-- Witness for C8 amended at a concrete used token. -/
theorem C8_used_token_w :
    linkdiscord ⟨[("c0de", ⟨"u", "Steve", 100, true⟩)], []⟩ true 1 43 "c0de" 300 =
      (⟨[("c0de", ⟨"u", "Steve", 100, true⟩)], []⟩, LinkAck.alreadyUsed) ∧
    tokenGet (mcLinkRequest ⟨[("c0de", ⟨"u", "Steve", 100, true⟩)], []⟩
        "c0de" "u2" "Alex" 400).1.tokens (pyStrip "c0de") =
      some ⟨pyStrip "u2", pyStrip "Alex", 400, false⟩ := by
  have h := C8_used_token ⟨[("c0de", ⟨"u", "Steve", 100, true⟩)], []⟩ 1 43 "c0de" 300
    ⟨"u", "Steve", 100, true⟩ (by decide) (by decide) rfl
  exact ⟨h.1, h.2 "u2" "Alex" 400 (by decide)⟩

/-- Pre-readiness buffering: each buffer receives exactly its own class
of arrivals, in arrival order. -/
theorem enqueueAll_spec (evs : List Arrival) : ∀ st : PendingState,
    enqueueAll st evs =
      { notifies := st.notifies ++ evs.filterMap noticePair
        msgs := st.msgs ++ evs.filterMap msgPair } := by
  induction evs with
  | nil => intro st; simp [enqueueAll]
  | cons e evspre ih =>
    intro st
    cases e with
    | notice th text =>
      have hstep : enqueueAll st (Arrival.notice th text :: evspre) =
          enqueueAll { st with notifies := st.notifies ++ [(th, text)] } evspre := rfl
      rw [hstep, ih]
      simp [List.filterMap_cons, noticePair, msgPair]
    | msg th m =>
      have hstep : enqueueAll st (Arrival.msg th m :: evspre) =
          enqueueAll (stepInbound false st (Arrival.msg th m)).1 evspre := rfl
      rw [hstep]
      cases hop : relayWorthyOp m.op with
      | true =>
        have h1 : (stepInbound false st (Arrival.msg th m)).1 =
            { st with msgs := st.msgs ++ [(th, m)] } := by
          simp [stepInbound, hop]
        rw [h1, ih]
        simp [List.filterMap_cons, noticePair, msgPair, hop]
      | false =>
        have h1 : (stepInbound false st (Arrival.msg th m)).1 = st := by
          simp [stepInbound, hop]
        rw [h1, ih]
        simp [List.filterMap_cons, noticePair, msgPair, hop]

/-- Replaying the notification buffer reproduces the notice arrivals. -/
theorem filterMap_noticePair_map (evs : List Arrival) :
    (evs.filterMap noticePair).map (fun e => Arrival.notice e.1 e.2) =
      evs.filter isNotice := by
  induction evs with
  | nil => rfl
  | cons e evs ih => cases e <;> simp [noticePair, isNotice, ih, List.filterMap_cons]

/-- Replaying the message buffer reproduces the relay-worthy frame
arrivals, when every buffered frame carried a relay-worthy op. -/
theorem filterMap_msgPair_map (evs : List Arrival)
    (hops : ∀ th m, Arrival.msg th m ∈ evs → relayWorthyOp m.op = true) :
    (evs.filterMap msgPair).map (fun e => Arrival.msg e.1 e.2) =
      evs.filter (fun a => !isNotice a) := by
  induction evs with
  | nil => rfl
  | cons e evs ih =>
    have hops' : ∀ th m, Arrival.msg th m ∈ evs → relayWorthyOp m.op = true :=
      fun th m hm => hops th m (List.mem_cons_of_mem _ hm)
    cases e with
    | notice th text => simp [msgPair, isNotice, ih hops', List.filterMap_cons]
    | msg th m =>
      have hm := hops th m (List.mem_cons_self _ _)
      simp [msgPair, isNotice, hm, ih hops', List.filterMap_cons]

/-- Every entry of the message buffer carries a relay-worthy op. -/
theorem msgPair_relayWorthy (evs : List Arrival) :
    ∀ e ∈ evs.filterMap msgPair, relayWorthyOp e.2.op = true := by
  intro e he
  obtain ⟨a, _, hfa⟩ := List.mem_filterMap.mp he
  cases a with
  | notice th text => simp [msgPair] at hfa
  | msg th m =>
    simp only [msgPair] at hfa
    cases hop : relayWorthyOp m.op with
    | false => rw [hop] at hfa; simp at hfa
    | true =>
      rw [hop] at hfa
      simp at hfa
      rw [← hfa]
      exact hop

/-- C2 counterexample: a chat frame arrives before a connect notification,
yet the flush replays the notification first — the pending traffic is not
one queue drained in global arrival order. -/
theorem C2_counterexample :
    flushReplay (enqueueAll emptyPending
        [Arrival.msg "h" ⟨"mc_chat", 0⟩, Arrival.notice "h" "connected"]) =
      [Arrival.notice "h" "connected", Arrival.msg "h" ⟨"mc_chat", 0⟩] ∧
    flushReplay (enqueueAll emptyPending
        [Arrival.msg "h" ⟨"mc_chat", 0⟩, Arrival.notice "h" "connected"]) ≠
      [Arrival.msg "h" ⟨"mc_chat", 0⟩, Arrival.notice "h" "connected"] := by
  decide

/-- C2 amended: relay-worthy traffic arriving before readiness is buffered
in two ordered queues — notifications and chat/event/moderation frames —
each in its own arrival order; the flush replays every buffered entry
exactly once through the normal path, all notifications first, then the
frames; global arrival order across the two classes is not preserved. -/
theorem C2_pending_order (evs : List Arrival)
    (hops : ∀ th m, Arrival.msg th m ∈ evs → relayWorthyOp m.op = true) :
    flushReplay (enqueueAll emptyPending evs) =
      evs.filter isNotice ++ evs.filter (fun a => !isNotice a) ∧
    ∀ a : Arrival, (flushReplay (enqueueAll emptyPending evs)).count a = evs.count a := by
  have hq := enqueueAll_spec evs emptyPending
  have hmain : flushReplay (enqueueAll emptyPending evs) =
      evs.filter isNotice ++ evs.filter (fun a => !isNotice a) := by
    rw [hq]
    unfold flushReplay
    simp only [emptyPending, List.nil_append]
    rw [List.filter_eq_self.mpr (msgPair_relayWorthy evs)]
    rw [filterMap_noticePair_map, filterMap_msgPair_map evs hops]
  refine ⟨hmain, ?_⟩
  intro a
  rw [hmain, List.count_append]
  have hz : ∀ p : Arrival → Bool, p a = false → (evs.filter p).count a = 0 := by
    intro p hp
    rw [List.count_eq_zero]
    intro hmem
    have h2 := (List.mem_filter.mp hmem).2
    rw [hp] at h2
    exact absurd h2 (by simp)
  cases ha : isNotice a with
  | true =>
    have h1 : (evs.filter isNotice).count a = evs.count a := List.count_filter (by rw [ha])
    have h2 : (evs.filter (fun a => !isNotice a)).count a = 0 := hz _ (by simp [ha])
    rw [h1, h2]
    omega
  | false =>
    have h1 : (evs.filter (fun a => !isNotice a)).count a = evs.count a :=
      List.count_filter (by simp [ha])
    have h2 : (evs.filter isNotice).count a = 0 := hz _ ha
    rw [h1, h2]
    omega

/-- Witness for C2 amended on a concrete two-class arrival list. -/
theorem C2_pending_order_w :
    flushReplay (enqueueAll emptyPending
        [Arrival.msg "h" ⟨"mc_chat", 0⟩, Arrival.notice "h" "connected"]) =
      [Arrival.notice "h" "connected", Arrival.msg "h" ⟨"mc_chat", 0⟩] := by
  have h := (C2_pending_order
      [Arrival.msg "h" ⟨"mc_chat", 0⟩, Arrival.notice "h" "connected"]
      (by
        intro th m hm
        simp only [List.mem_cons, List.not_mem_nil, or_false] at hm
        rcases hm with hm | hm
        · rw [show m = (⟨"mc_chat", 0⟩ : McMsg) from (Arrival.msg.injEq _ _ _ _).mp hm |>.2]
          decide
        · exact absurd hm (by simp))).1
  exact h.trans (by decide)

/-- C3 counterexample: with readiness already fired, a connect
notification is still appended to the pending notification buffer and is
not delivered directly. -/
theorem C3_counterexample :
    stepInbound true emptyPending (Arrival.notice "h" "connected") =
      ({ notifies := [("h", "connected")], msgs := [] }, []) ∧
    ({ notifies := [("h", "connected")], msgs := [] } : PendingState) ≠ emptyPending := by
  decide

/-- C3 amended: after readiness fires, every new chat/event/moderation
frame bypasses the pending buffers and is delivered directly; connect and
disconnect notifications, however, are always appended to the
notification buffer, readiness notwithstanding. -/
theorem C3_after_ready (st : PendingState) (th text : String) (m : McMsg)
    (hop : relayWorthyOp m.op = true) :
    stepInbound true st (Arrival.msg th m) = (st, [Arrival.msg th m]) ∧
    stepInbound true st (Arrival.notice th text) =
      ({ st with notifies := st.notifies ++ [(th, text)] }, []) := by
  constructor
  · simp [stepInbound, hop]
  · rfl

/-- Witness for C3 amended at a concrete ready-time chat frame. -/
theorem C3_after_ready_w :
    stepInbound true emptyPending (Arrival.msg "h" ⟨"mc_chat", 3⟩) =
      (emptyPending, [Arrival.msg "h" ⟨"mc_chat", 3⟩]) :=
  (C3_after_ready emptyPending "h" "t" ⟨"mc_chat", 3⟩ (by decide)).1

/-- One step of the Python `max` fold. -/
theorem maxByPos_eq_cons (h a : Role) (t : List Role) :
    maxByPos h (a :: t) = maxByPos (if h.position < a.position then a else h) t := rfl

/-- The Python `max` picks an element of the list. -/
theorem maxByPos_mem (t : List Role) : ∀ h : Role, maxByPos h t ∈ h :: t := by
  induction t with
  | nil => intro h; simp [maxByPos]
  | cons a t ih =>
    intro h
    rw [maxByPos_eq_cons]
    have hmem := ih (if h.position < a.position then a else h)
    rcases List.mem_cons.mp hmem with h1 | h1
    · rw [h1]
      by_cases hp : h.position < a.position
      · simp [hp]
      · simp [hp]
    · exact List.mem_cons_of_mem _ (List.mem_cons_of_mem _ h1)

/-- The Python `max` dominates every element's position. -/
theorem maxByPos_le (t : List Role) :
    ∀ h : Role, ∀ r ∈ h :: t, r.position ≤ (maxByPos h t).position := by
  induction t with
  | nil =>
    intro h r hr
    simp at hr
    rw [hr]
    simp [maxByPos]
  | cons a t ih =>
    intro h r hr
    rw [maxByPos_eq_cons]
    have hhead := ih (if h.position < a.position then a else h) _ (List.mem_cons_self _ _)
    by_cases hp : h.position < a.position
    · rw [if_pos hp] at hhead ⊢
      rcases List.mem_cons.mp hr with h1 | h1
      · rw [h1]; omega
      · rcases List.mem_cons.mp h1 with h2 | h2
        · rw [h2]; exact hhead
        · exact ih a r (List.mem_cons_of_mem _ h2)
    · rw [if_neg hp] at hhead ⊢
      rcases List.mem_cons.mp hr with h1 | h1
      · rw [h1]; exact hhead
      · rcases List.mem_cons.mp h1 with h2 | h2
        · rw [h2]; omega
        · exact ih h r (List.mem_cons_of_mem _ h2)

/-- The selected color role is a colored role of maximal position. -/
theorem colorRoleOf_spec (roles : List Role) (cr : Role)
    (h : colorRoleOf roles = some cr) :
    cr ∈ roles ∧ cr.colour ≠ 0 ∧
      ∀ q ∈ roles, q.colour ≠ 0 → q.position ≤ cr.position := by
  unfold colorRoleOf at h
  cases hf : coloredRoles roles with
  | nil => rw [hf] at h; simp at h
  | cons ch ct =>
    rw [hf] at h
    simp only [Option.some.injEq] at h
    have hmem : cr ∈ ch :: ct := by rw [← h]; exact maxByPos_mem ct ch
    rw [← hf] at hmem
    have hmem2 := List.mem_filter.mp hmem
    refine ⟨hmem2.1, by simpa using hmem2.2, ?_⟩
    intro q hq hqc
    have hqf : q ∈ coloredRoles roles :=
      List.mem_filter.mpr ⟨hq, by simpa using hqc⟩
    rw [hf] at hqf
    rw [← h]
    exact maxByPos_le ct ch q hqf

/-- C6: cosmetics are selected per the spec — color is the hex of the
highest-positioned role with a non-default color (none when no role is
colored); the chat tag comes from the highest-positioned hoisted role,
else from the color role, else from the highest-positioned role, and is
none exactly when the member holds no non-default roles; in the spec's
scenario of roles A (hoisted, uncolored) and B (unhoisted, colored,
higher) the tag resolves from A and the color from B. -/
theorem C6_cosmetics :
    (∀ rs : List Role, (mcColor rs = none ↔ ∀ r ∈ nonDefaultRoles rs, r.colour = 0)) ∧
    (∀ rs : List Role, ∀ r ∈ nonDefaultRoles rs, r.colour ≠ 0 →
      ∃ cr, cr ∈ nonDefaultRoles rs ∧ cr.colour ≠ 0 ∧
        mcColor rs = some (hashHex cr.colour) ∧
        ∀ q ∈ nonDefaultRoles rs, q.colour ≠ 0 → q.position ≤ cr.position) ∧
    (∀ rs : List Role, (mcTag rs = none ↔ nonDefaultRoles rs = [])) ∧
    (∀ rs : List Role, ∀ r ∈ nonDefaultRoles rs, r.hoist = true →
      ∃ hr, hr ∈ nonDefaultRoles rs ∧ hr.hoist = true ∧
        mcTag rs = some ("[" ++ hr.name ++ "]") ∧
        ∀ q ∈ nonDefaultRoles rs, q.hoist = true → q.position ≤ hr.position) ∧
    (∀ rs : List Role, (∀ r ∈ nonDefaultRoles rs, r.hoist = false) →
      ∀ cr, colorRoleOf (nonDefaultRoles rs) = some cr →
        mcTag rs = some ("[" ++ cr.name ++ "]")) ∧
    (∀ rs : List Role, (∀ r ∈ nonDefaultRoles rs, r.hoist = false) →
      (∀ r ∈ nonDefaultRoles rs, r.colour = 0) →
      ∀ h t, nonDefaultRoles rs = h :: t →
        mcTag rs = some ("[" ++ (maxByPos h t).name ++ "]")) ∧
    (mcTag [roleA, roleB] = some "[A]" ∧ mcColor [roleA, roleB] = some "#FF0000") := by
  have hhoistfilter : ∀ rs : List Role, (∀ r ∈ nonDefaultRoles rs, r.hoist = false) →
      (nonDefaultRoles rs).filter (fun r => r.hoist) = [] := by
    intro rs hall
    rw [List.filter_eq_nil_iff]
    intro r hr
    simp [hall r hr]
  refine ⟨?_, ?_, ?_, ?_, ?_, ?_, ?_⟩
  · intro rs
    unfold mcColor colorHexOf colorRoleOf
    cases hf : coloredRoles (nonDefaultRoles rs) with
    | nil =>
      simp only [Option.map_none']
      constructor
      · intro _ r hr
        by_contra hc
        have : r ∈ coloredRoles (nonDefaultRoles rs) :=
          List.mem_filter.mpr ⟨hr, by simpa using hc⟩
        rw [hf] at this
        simp at this
      · intro _; trivial
    | cons ch ct =>
      simp only [Option.map_some']
      constructor
      · intro h; simp at h
      · intro hall
        have : ch ∈ coloredRoles (nonDefaultRoles rs) := by
          rw [hf]; exact List.mem_cons_self _ _
        have h2 := List.mem_filter.mp this
        have h3 := hall ch h2.1
        have h4 := h2.2
        simp [h3] at h4
  · intro rs r hr hrc
    cases hcr : colorRoleOf (nonDefaultRoles rs) with
    | none =>
      exfalso
      unfold colorRoleOf at hcr
      cases hf : coloredRoles (nonDefaultRoles rs) with
      | nil =>
        have : r ∈ coloredRoles (nonDefaultRoles rs) :=
          List.mem_filter.mpr ⟨hr, by simpa using hrc⟩
        rw [hf] at this
        simp at this
      | cons ch ct => rw [hf] at hcr; simp at hcr
    | some cr =>
      obtain ⟨h1, h2, h3⟩ := colorRoleOf_spec (nonDefaultRoles rs) cr hcr
      exact ⟨cr, h1, h2, by simp [mcColor, colorHexOf, hcr], h3⟩
  · intro rs
    unfold mcTag tagOf tagRoleOf
    cases hnd : nonDefaultRoles rs with
    | nil => simp
    | cons h t =>
      simp only []
      constructor
      · intro hcontra
        exfalso
        cases hft : (h :: t).filter (fun r => r.hoist) with
        | cons x xs => rw [hft] at hcontra; simp at hcontra
        | nil =>
          rw [hft] at hcontra
          cases hcol : colorRoleOf (h :: t) with
          | some cr => rw [hcol] at hcontra; simp at hcontra
          | none => rw [hcol] at hcontra; simp at hcontra
      · intro hcontra; exact absurd hcontra (by simp)
  · intro rs r hr hrh
    cases hnd : nonDefaultRoles rs with
    | nil => rw [hnd] at hr; simp at hr
    | cons h t =>
      cases hft : (h :: t).filter (fun r => r.hoist) with
      | nil =>
        exfalso
        rw [hnd] at hr
        have : r ∈ (h :: t).filter (fun r => r.hoist) :=
          List.mem_filter.mpr ⟨hr, by simpa using hrh⟩
        rw [hft] at this
        simp at this
      | cons hh ht =>
        refine ⟨maxByPos hh ht, ?_, ?_, ?_, ?_⟩
        · have : maxByPos hh ht ∈ hh :: ht := maxByPos_mem ht hh
          rw [← hft] at this
          exact (List.mem_filter.mp this).1
        · have : maxByPos hh ht ∈ hh :: ht := maxByPos_mem ht hh
          rw [← hft] at this
          have h2 := (List.mem_filter.mp this).2
          simpa using h2
        · unfold mcTag tagOf tagRoleOf
          rw [hnd]
          simp only [hft]
          rfl
        · intro q hq hqh
          have hqf : q ∈ (h :: t).filter (fun r => r.hoist) :=
            List.mem_filter.mpr ⟨hq, by simpa using hqh⟩
          rw [hft] at hqf
          exact maxByPos_le ht hh q hqf
  · intro rs hall cr hcr
    cases hnd : nonDefaultRoles rs with
    | nil =>
      exfalso
      unfold colorRoleOf coloredRoles at hcr
      rw [hnd] at hcr
      simp at hcr
    | cons h t =>
      have hft := hhoistfilter rs hall
      rw [hnd] at hft
      rw [hnd] at hcr
      unfold mcTag tagOf tagRoleOf
      rw [hnd]
      simp only [hft]
      simp only [hcr]
      rfl
  · intro rs hall hallc h t hnd
    have hft := hhoistfilter rs hall
    rw [hnd] at hft
    have hcol : colorRoleOf (h :: t) = none := by
      unfold colorRoleOf
      have : coloredRoles (h :: t) = [] := by
        unfold coloredRoles
        rw [List.filter_eq_nil_iff]
        intro r hr
        rw [← hnd] at hr
        simp [hallc r hr]
      rw [this]
    unfold mcTag tagOf tagRoleOf
    rw [hnd]
    simp [hft, hcol]
  · constructor
    · decide
    · decide

/-- Witness for C6: the hoisted-role branch at the spec's scenario roles. -/
theorem C6_cosmetics_w :
    ∃ hr, hr ∈ nonDefaultRoles [roleA, roleB] ∧ hr.hoist = true ∧
      mcTag [roleA, roleB] = some ("[" ++ hr.name ++ "]") ∧
      ∀ q ∈ nonDefaultRoles [roleA, roleB], q.hoist = true → q.position ≤ hr.position :=
  C6_cosmetics.2.2.2.1 [roleA, roleB] roleA (by decide) (by decide)

/-- Source `takeWhile` eats exactly a fully-satisfying block when what follows
starts with a failing character. -/
theorem takeWhile_append_all (p : Char → Bool) (tok b : List Char)
    (hall : tok.all p = true) (hb : ∀ c, b.head? = some c → p c = false) :
    (tok ++ b).takeWhile p = tok := by
  induction tok with
  | nil =>
    cases b with
    | nil => rfl
    | cons c bs =>
      rw [List.nil_append, List.takeWhile_cons, hb c rfl]
      simp
  | cons x xs ih =>
    rw [List.all_cons, Bool.and_eq_true] at hall
    rw [List.cons_append, List.takeWhile_cons, hall.1]
    simp only [if_true]
    rw [ih hall.2]

/-- A text with no `@` yields no mention match. -/
theorem scanTokens_of_noAt (l : List Char) (h : '@' ∉ l) : scanTokens l = [] := by
  induction l with
  | nil => simp [scanTokens]
  | cons c rest ih =>
    have hc : ¬c = '@' := fun he => h (he ▸ List.mem_cons_self c rest)
    have h' : '@' ∉ rest := fun hm => h (List.mem_cons_of_mem _ hm)
    simp only [scanTokens]
    rw [if_neg hc]
    exact ih h'

/-- A text with no `@` is left untouched by the substitution pass. -/
theorem substTokens_of_noAt (f : List Char → Option (List Char)) (l : List Char)
    (h : '@' ∉ l) : substTokens f l = l := by
  induction l with
  | nil => simp [substTokens]
  | cons c rest ih =>
    have hc : ¬c = '@' := fun he => h (he ▸ List.mem_cons_self c rest)
    have h' : '@' ∉ rest := fun hm => h (List.mem_cons_of_mem _ hm)
    simp only [substTokens]
    rw [if_neg hc, ih h']

/-- Scanning skips an `@`-free block. -/
theorem scanTokens_append_of_noAt (a b : List Char) (ha : '@' ∉ a) :
    scanTokens (a ++ b) = scanTokens b := by
  induction a with
  | nil => rfl
  | cons c rest ih =>
    have hc : ¬c = '@' := fun he => ha (he ▸ List.mem_cons_self c rest)
    have h' : '@' ∉ rest := fun hm => ha (List.mem_cons_of_mem _ hm)
    rw [List.cons_append]
    simp only [scanTokens]
    rw [if_neg hc]
    exact ih h'

/-- Substitution copies an `@`-free block. -/
theorem substTokens_append_of_noAt (f : List Char → Option (List Char))
    (a b : List Char) (ha : '@' ∉ a) :
    substTokens f (a ++ b) = a ++ substTokens f b := by
  induction a with
  | nil => rfl
  | cons c rest ih =>
    have hc : ¬c = '@' := fun he => ha (he ▸ List.mem_cons_self c rest)
    have h' : '@' ∉ rest := fun hm => ha (List.mem_cons_of_mem _ hm)
    rw [List.cons_append]
    simp only [substTokens]
    rw [if_neg hc, ih h']
    rfl

/-- At a well-formed match site the scanner recognises exactly the token. -/
theorem scanTokens_at_match (tok b : List Char)
    (htw : tok.all isWordChar = true) (h2 : 2 ≤ tok.length) (h32 : tok.length ≤ 32)
    (hb : ∀ c, b.head? = some c → isWordChar c = false) :
    scanTokens ('@' :: (tok ++ b)) = tok :: scanTokens b := by
  have hrun : (tok ++ b).takeWhile isWordChar = tok :=
    takeWhile_append_all isWordChar tok b htw hb
  simp only [scanTokens, if_true]
  rw [hrun, List.take_of_length_le h32, if_pos h2, List.drop_left]

/-- At a well-formed match site the substitution replaces exactly the
token (or keeps it literal) and then continues after it. -/
theorem substTokens_at_match (f : List Char → Option (List Char)) (tok b : List Char)
    (htw : tok.all isWordChar = true) (h2 : 2 ≤ tok.length) (h32 : tok.length ≤ 32)
    (hb : ∀ c, b.head? = some c → isWordChar c = false) :
    substTokens f ('@' :: (tok ++ b)) =
      (match f tok with
       | some rep => rep
       | none => '@' :: tok) ++ substTokens f b := by
  have hrun : (tok ++ b).takeWhile isWordChar = tok :=
    takeWhile_append_all isWordChar tok b htw hb
  simp only [substTokens, if_true]
  rw [hrun, List.take_of_length_le h32, if_pos h2, List.drop_left]

/-- Source `find?` returns the first satisfying element. -/
theorem find?_first {α : Type} (p : α → Bool) :
    ∀ (l : List α) (x : α), l.find? p = some x →
      ∃ l1 l2, l = l1 ++ x :: l2 ∧ (∀ y ∈ l1, p y = false) ∧ p x = true := by
  intro l
  induction l with
  | nil => intro x h; simp at h
  | cons a l ih =>
    intro x h
    cases hpa : p a with
    | true =>
      rw [List.find?_cons_of_pos _ hpa] at h
      have hax : a = x := Option.some.inj h
      exact ⟨[], l, by rw [hax]; rfl, by intro y hy; simp at hy, hax ▸ hpa⟩
    | false =>
      rw [List.find?_cons_of_neg _ (by simp [hpa])] at h
      obtain ⟨l1, l2, heq, hall, hx⟩ := ih x h
      refine ⟨a :: l1, l2, by rw [heq, List.cons_append], ?_, hx⟩
      intro y hy
      rcases List.mem_cons.mp hy with h1 | h1
      · rw [h1]; exact hpa
      · exact hall y h1

/-- C9: in a text `a @tok b` (with `tok` a 2-32 character word token at a
proper match boundary), the token is matched case-insensitively against
the guild's usernames, display names and global names; when the first
member carrying the name is linked, the one-pass substitution rewrites
exactly the token into the member reference and keeps `a` and `b`
literal; an unresolved or unlinked token leaves the text unchanged; and
the resolving member is the first-registered carrier of the name. -/
theorem C9_mentions (env : MentionEnv) (th : String) (gid : Nat) (members : List Member)
    (a tok b : List Char)
    (hg : env.mcLinkGuild th = some gid) (hbot : env.botSet = true)
    (hm : env.guildMembers gid = some members)
    (ha : '@' ∉ a) (hb : '@' ∉ b)
    (hbw : ∀ c, b.head? = some c → isWordChar c = false)
    (htw : tok.all isWordChar = true) (h2 : 2 ≤ tok.length) (h32 : tok.length ≤ 32) :
    (∀ m, nameToMember members (String.mk (lowerChars tok)) = some m →
        (env.linkedIds gid).contains m.id = true →
        applyMcMentions env (some th) (String.mk (a ++ '@' :: (tok ++ b))) =
          String.mk (a ++ mentionRepl m.id ++ b)) ∧
    (nameToMember members (String.mk (lowerChars tok)) = none →
        applyMcMentions env (some th) (String.mk (a ++ '@' :: (tok ++ b))) =
          String.mk (a ++ '@' :: (tok ++ b))) ∧
    (∀ m, nameToMember members (String.mk (lowerChars tok)) = some m →
        (env.linkedIds gid).contains m.id = false →
        applyMcMentions env (some th) (String.mk (a ++ '@' :: (tok ++ b))) =
          String.mk (a ++ '@' :: (tok ++ b))) ∧
    (∀ m, nameToMember members (String.mk (lowerChars tok)) = some m →
        m ∈ members ∧ (nameKeys m).contains (String.mk (lowerChars tok)) = true ∧
        ∃ l1 l2, members = l1 ++ m :: l2 ∧
          ∀ m' ∈ l1, (nameKeys m').contains (String.mk (lowerChars tok)) = false) := by
  have hT : ('@' : Char) ∈ a ++ '@' :: (tok ++ b) :=
    List.mem_append_right _ (List.mem_cons_self _ _)
  have hcont : (a ++ '@' :: (tok ++ b)).contains '@' = true := List.elem_iff.mpr hT
  have hscan : scanTokens (a ++ '@' :: (tok ++ b)) = [tok] := by
    rw [scanTokens_append_of_noAt a _ ha,
        scanTokens_at_match tok b htw h2 h32 hbw,
        scanTokens_of_noAt b hb]
  have hdata : (String.mk (a ++ '@' :: (tok ++ b))).data = a ++ '@' :: (tok ++ b) := rfl
  have hred0 : (env.linkedIds gid).isEmpty = true →
      applyMcMentions env (some th) (String.mk (a ++ '@' :: (tok ++ b))) =
        String.mk (a ++ '@' :: (tok ++ b)) := by
    intro hl
    unfold applyMcMentions
    simp only [hdata, hcont, hscan, hg, hm, hbot, hl]
    simp
  have hred : (env.linkedIds gid).isEmpty = false →
      applyMcMentions env (some th) (String.mk (a ++ '@' :: (tok ++ b))) =
        (if (([tok].filter (fun t =>
              ((tokenToId members (env.linkedIds gid) t).map mentionRepl).isSome)).isEmpty)
         then String.mk (a ++ '@' :: (tok ++ b))
         else String.mk (substTokens
                (fun t => (tokenToId members (env.linkedIds gid) t).map mentionRepl)
                (a ++ '@' :: (tok ++ b)))) := by
    intro hl
    unfold applyMcMentions
    simp only [hdata, hcont, hscan, hg, hm, hbot, hl]
    simp
  refine ⟨?_, ?_, ?_, ?_⟩
  · intro m hnm hlink
    have hne : (env.linkedIds gid).isEmpty = false := by
      cases hl : env.linkedIds gid with
      | nil => rw [hl] at hlink; simp at hlink
      | cons x xs => rfl
    have hmemid : m.id ∈ env.linkedIds gid := by simpa using hlink
    have htok : tokenToId members (env.linkedIds gid) tok = some m.id := by
      unfold tokenToId
      rw [hnm]
      simp [hmemid]
    rw [hred hne]
    rw [if_neg (by simp [List.filter_cons, htok])]
    have hsub : substTokens
        (fun t => (tokenToId members (env.linkedIds gid) t).map mentionRepl)
        (a ++ '@' :: (tok ++ b)) = a ++ mentionRepl m.id ++ b := by
      rw [substTokens_append_of_noAt _ a _ ha,
          substTokens_at_match _ tok b htw h2 h32 hbw,
          substTokens_of_noAt _ b hb]
      simp only [htok, Option.map_some']
      rw [List.append_assoc]
    rw [hsub]
  · intro hnm
    cases hl : (env.linkedIds gid).isEmpty with
    | true => exact hred0 hl
    | false =>
      have htok : tokenToId members (env.linkedIds gid) tok = none := by
        unfold tokenToId
        rw [hnm]
      rw [hred hl]
      rw [if_pos (by simp [List.filter_cons, htok])]
  · intro m hnm hlink
    cases hl : (env.linkedIds gid).isEmpty with
    | true => exact hred0 hl
    | false =>
      have hmemid : m.id ∉ env.linkedIds gid := by simpa using hlink
      have htok : tokenToId members (env.linkedIds gid) tok = none := by
        unfold tokenToId
        rw [hnm]
        simp [hmemid]
      rw [hred hl]
      rw [if_pos (by simp [List.filter_cons, htok])]
  · intro m hnm
    have hnm2 : members.find?
        (fun mm => (nameKeys mm).contains (String.mk (lowerChars tok))) = some m := hnm
    have hp0 := List.find?_some hnm2
    have hmem : m ∈ members := List.mem_of_find?_eq_some hnm2
    obtain ⟨l1, l2, heq, hall, _⟩ :=
      find?_first (fun mm => (nameKeys mm).contains (String.mk (lowerChars tok))) members m hnm2
    exact ⟨hmem, by simpa using hp0, l1, l2, heq, hall⟩

/-- Witness for C9: the spec scenario `hello @Alex` with Alex linked,
resolved to a real member reference. -/
theorem C9_mentions_w :
    applyMcMentions envW (some "th1")
        (String.mk ("hello ".data ++ '@' :: ("Alex".data ++ []))) =
      String.mk ("hello ".data ++ mentionRepl 42 ++ []) :=
  (C9_mentions envW "th1" 7 [alexMember] "hello ".data "Alex".data []
      (by decide) rfl (by decide) (by decide) (by decide)
      (by intro c hc; simp at hc) (by decide) (by decide) (by decide)).1
    alexMember (by decide) (by decide)
